import Mathlib

/-!
Shallow embedding of the GUITAR-PAINT application logic (a browser guitar
customization tool) and proofs about it.

The embedding covers:
* the domain enumerations and characteristic tables (`types.ts`, `constants.ts`);
* the trigger-word branch and fallback text of `generateLutheriePrompt` and the
  part-scanning of `generateModifiedGuitarImage` (`services/geminiService.ts`);
* the interaction-shell state handlers `applyFrankensteinPreset`,
  `performAnalysis` / `handleFileUpload`, `handleSimulate` and
  `handleSendMessage` (`App.tsx`).

External collaborator calls (the generative services) are modelled by passing
their outcome as an explicit argument: `none` stands for a thrown/transport
failure, `some v` for a response `v`.  JavaScript string falsiness (`s || d`)
is modelled explicitly: the empty string counts as falsy.  Apostrophes inside
source string literals are written with the escape \x27.
-/

namespace GuitarPaint

/-! ## Domain vocabulary (`types.ts`) -/

inductive BodyWood
  | MAHOGANY | ASH | ALDER | MAPLE | BASSWOOD | KOA
  deriving DecidableEq

def BodyWood.value : BodyWood → String
  | .MAHOGANY => "Mahogany"
  | .ASH => "Swamp Ash"
  | .ALDER => "Alder"
  | .MAPLE => "Maple"
  | .BASSWOOD => "Basswood"
  | .KOA => "Koa"

inductive NeckProfile
  | MODERN_C | VINTAGE_50S | SLIM_TAPER | WIZARD
  deriving DecidableEq

def NeckProfile.value : NeckProfile → String
  | .MODERN_C => "Modern C"
  | .VINTAGE_50S => "50s Vintage U"
  | .SLIM_TAPER => "Slim Taper D"
  | .WIZARD => "Super Thin (Wizard)"

inductive FretboardMaterial
  | ROSEWOOD | MAPLE | EBONY | PAU_FERRO
  deriving DecidableEq

def FretboardMaterial.value : FretboardMaterial → String
  | .ROSEWOOD => "Rosewood"
  | .MAPLE => "Maple"
  | .EBONY => "Ebony"
  | .PAU_FERRO => "Pau Ferro"

inductive BridgeSystem
  | TUNE_O_MATIC | HARDTAIL | SYNCHRONIZED_TREMOLO | FLOYD_ROSE | EVERTUNE
  deriving DecidableEq

def BridgeSystem.value : BridgeSystem → String
  | .TUNE_O_MATIC => "Tune-o-matic (Fixed)"
  | .HARDTAIL => "Hardtail (String-thru)"
  | .SYNCHRONIZED_TREMOLO => "Synchronized Tremolo (Vintage)"
  | .FLOYD_ROSE => "Floyd Rose (Double Locking)"
  | .EVERTUNE => "Evertune (Spring Tension)"

inductive PickupConfig
  | SSS | HSS | HH | P90
  deriving DecidableEq

def PickupConfig.value : PickupConfig → String
  | .SSS => "SSS (3 Single Coils)"
  | .HSS => "HSS (Humbucker Bridge)"
  | .HH => "HH (Dual Humbuckers)"
  | .P90 => "Dual P-90s"

/-! ## Characteristic tables (`constants.ts`) -/

def WOOD_CHARACTERISTICS : BodyWood → String
  | .MAHOGANY => "High density, warm lows/mids, slow decay. Visually porous grain, often reddish-brown."
  | .ASH => "Lightweight, scooped mids, pronounced \x27twang\x27 and high-end snap. Distinctive, bold grain patterns."
  | .ALDER => "Balanced weight and frequency response. The neutral standard for bolt-on bodies. Closed grain."
  | .MAPLE => "Extreme density, very bright attack, heavy weight. Tight grain, often figured (flame/quilt)."
  | .BASSWOOD => "Soft, lightweight, neutral tone with strong fundamental. Minimal grain definition."
  | .KOA => "Medium density, crisp highs that warm up over time. Exotic, highly figured golden/brown grain."

def NECK_CHARACTERISTICS : NeckProfile → String
  | .MODERN_C => "Oval ergonomic profile, standard for contemporary playability."
  | .VINTAGE_50S => "Thick \x27Baseball Bat\x27 profile, maximizes mechanical coupling and sustain."
  | .SLIM_TAPER => "Flat \x27D\x27 shape, low mass, favored for faster playing styles."
  | .WIZARD => "Ultra-thin, flat radius, reinforced with volute or multi-ply for stability."

def BRIDGE_MECHANICS : BridgeSystem → String
  | .TUNE_O_MATIC => "Fixed bridge, sharp break angle, maximizes body resonance transfer."
  | .HARDTAIL => "String-through body, high tuning stability, direct vibration transfer."
  | .SYNCHRONIZED_TREMOLO => "Vintage vibrato fulcrum, relies on spring claw tension."
  | .FLOYD_ROSE => "Double locking nut/bridge, infinite sustain, dive-bomb capability."
  | .EVERTUNE => "Mechanical spring modules per saddle, constant tension, zero pitch drift."

def FRETBOARD_RESPONSE : FretboardMaterial → String
  | .EBONY => "Extreme hardness, glass-like surface, immediate transient attack."
  | .MAPLE => "Finished surface, bright snap, distinct separation of notes."
  | .ROSEWOOD => "Oily open pore, warm attack, attenuates harsh high frequencies."
  | .PAU_FERRO => "Harder than rosewood, snappy attack, tight grain structure."

/-! ## Specification record (`types.ts` `GuitarSpecs`, `App.tsx` state) -/

structure GuitarSpecs where
  bodyWood : BodyWood
  neckProfile : NeckProfile
  fretboard : FretboardMaterial
  bridge : BridgeSystem
  pickups : PickupConfig
  scaleLength : String
  fretboardRadius : String
  notes : Option String
  construction : Option String
  philosophy : Option String
  deriving DecidableEq

/-- The `useState` initializer for `specs` in `App.tsx` (lines 80-89). -/
def defaultSpecs : GuitarSpecs where
  bodyWood := .ALDER
  neckProfile := .MODERN_C
  fretboard := .ROSEWOOD
  bridge := .TUNE_O_MATIC
  pickups := .HH
  scaleLength := "24.75\""
  fretboardRadius := "12\""
  notes := some ""
  construction := none
  philosophy := none

/-- The notes string installed by `applyFrankensteinPreset` (`App.tsx` line 147). -/
def frankensteinNotes : String :=
  "Custom Shop \x27Frankenstein\x27 mod. Gibson style Humbucker in bridge. Heavy relic aged Nitrocellulose finish. High performance hybrid aesthetic."

/-- `applyFrankensteinPreset` (`App.tsx` lines 141-149): a single functional
update of the previous specs, overwriting bridge, pickups, bodyWood and notes. -/
def applyFrankensteinPreset (prev : GuitarSpecs) : GuitarSpecs :=
  { prev with
    bridge := .FLOYD_ROSE
    pickups := .HSS
    bodyWood := .ASH
    notes := some frankensteinNotes }

/-! ## String helpers: the JavaScript operations used by the services

`charsStartWith pat l` models "`l` starts with `pat`", `charsContain pat l`
models `l.includes(pat)` over character lists, and `lowerChars s` models
`s.toLowerCase()` (character-wise lowering, faithful on the ASCII strings the
code compares). -/

def charsStartWith : List Char → List Char → Bool
  | [], _ => true
  | _ :: _, [] => false
  | c :: cs, d :: ds => c == d && charsStartWith cs ds

def charsContain (pat : List Char) : List Char → Bool
  | [] => charsStartWith pat []
  | c :: t => charsStartWith pat (c :: t) || charsContain pat t

def lowerChars (s : String) : List Char :=
  s.data.map Char.toLower

/-- Models `s.toLowerCase().includes(pat)` for an already-lowercase pattern
`pat`, as used by `generateLutheriePrompt` on the notes field. -/
def containsLower (s pat : String) : Bool :=
  charsContain pat.data (lowerChars s)

/-- Models `s.trim()`: drop whitespace from both ends of the character list. -/
def jsTrim (s : String) : List Char :=
  ((s.data.dropWhile Char.isWhitespace).reverse.dropWhile Char.isWhitespace).reverse

/-- Models `s || d` for JavaScript strings: the empty string is falsy. -/
def orFalsy (s : Option String) (d : String) : String :=
  match s with
  | none => d
  | some t => if t = "" then d else t

/-! ## Prompt synthesizer (`generateLutheriePrompt`, `geminiService.ts` 101-175) -/

/-- `const notes = targetSpecs.notes || ""` (`geminiService.ts` line 110). -/
def notesOf (specs : GuitarSpecs) : String :=
  orFalsy specs.notes ""

/-- The `isFrankenstein` test (`geminiService.ts` line 111): a case-insensitive
substring test of the notes against the three fixed trigger words. -/
def isFrankenstein (notes : String) : Bool :=
  containsLower notes "frankenstein" || containsLower notes "relic" || containsLower notes "hybrid"

/-- The deviate-from-philosophy instruction (the first branch of
`philosophyInstruction`, `geminiService.ts` lines 114-116). -/
def deviateInstruction : String :=
  "Create a \x27High Performance Hybrid\x27 aesthetic. Act as a Custom Shop Luthier blending the original shape with aggressive, modern, or distressed (relic) modifications. Deviate from the original vintage philosophy to achieve a unique \x27Frankenstein\x27 super-mod look."

def preserveHead : String :=
  "Ensure the aesthetic respects the original instrument\x27s philosophy ("

def preserveTail : String :=
  ") unless the modification explicitly contradicts it."

/-- The preserve-philosophy instruction (the second branch of
`philosophyInstruction`): the template literal embedding `originalPhilosophy`. -/
def preserveInstruction (originalPhilosophy : String) : String :=
  preserveHead ++ originalPhilosophy ++ preserveTail

/-- The `philosophyInstruction` constant of `generateLutheriePrompt`
(`geminiService.ts` lines 113-117). -/
def philosophyInstruction (targetSpecs : GuitarSpecs) (originalPhilosophy : String) : String :=
  if isFrankenstein (notesOf targetSpecs) then deviateInstruction
  else preserveInstruction originalPhilosophy

/-- The literal fallback returned when the service response carries no text
(`geminiService.ts` line 166). -/
def failedPromptText : String := "Failed to generate prompt."

/-- The `userPrompt` template literal of `generateLutheriePrompt`
(`geminiService.ts` lines 122-148), with the interpolations spelled out as
concatenation.  The enum interpolations print the enum's string value. -/
def lutherieUserPrompt (targetSpecs : GuitarSpecs) (originalPhilosophy : String) : String :=
  "\n    Context: The user wants to modify the guitar shown in the attached image.\n    \n    Original Instrument Philosophy: "
  ++ originalPhilosophy
  ++ "\n    \n    Requested Modifications (Target Specs):\n    - Body Material: "
  ++ targetSpecs.bodyWood.value
  ++ "\n    - Fretboard: "
  ++ targetSpecs.fretboard.value
  ++ "\n    - Bridge System: "
  ++ targetSpecs.bridge.value
  ++ "\n    - Pickup Config: "
  ++ targetSpecs.pickups.value
  ++ "\n    - Neck Profile: "
  ++ targetSpecs.neckProfile.value
  ++ "\n    - Additional Notes: "
  ++ notesOf targetSpecs
  ++ "\n\n    Action: Generate an ultra-detailed technical visual description to be used as an image generation prompt (e.g. for Stable Diffusion or Imagen).\n    \n    Mandatory Requirements:\n    1. LIGHTING & ANGLE: Maintain the ORIGINAL lighting, angle, and perspective of the reference image exactly.\n    2. MATERIAL PHYSICS: Describe the specific wood grain and finish based on lutherie taxonomy (e.g., if Mahogany -> \"porous reddish-brown grain with nitrocellulose fill\"; if Ash -> \"deep open pore grain\").\n    3. MECHANICS: \n       - If Evertune is selected, describe it as \"modern chrome Evertune bridge system with individual saddle modules and spring tensioners\".\n       - If Floyd Rose, describe \"double-locking tremolo system with fine tuners and locking nut\".\n    4. PHILOSOPHY: "
  ++ philosophyInstruction targetSpecs originalPhilosophy
  ++ "\n    \n    Output Format: \n    A single paragraph English prompt starting with \"A photorealistic 8k close-up shot of a modified electric guitar...\". \n    Focus heavily on textures (wood pores, metal sheen, plastic aging).\n  "

/-- `generateLutheriePrompt` (`geminiService.ts` lines 101-175), with the
external call's outcome passed explicitly: `none` models a thrown error
(rethrown by the catch block), `some t` a successful response whose `text`
field is `t` (`none`/empty modelling an absent/empty text, which the code
replaces by the fallback literal via `||`).  The request sent to the service
embeds `lutherieUserPrompt targetSpecs originalPhilosophy`. -/
def generateLutheriePrompt (targetSpecs : GuitarSpecs) (originalPhilosophy : String)
    (svcOutcome : Option (Option String)) : Except Unit String :=
  let _request := lutherieUserPrompt targetSpecs originalPhilosophy
  match svcOutcome with
  | none => .error ()
  | some t => .ok (orFalsy t failedPromptText)

/-! ## Image synthesizer (`generateModifiedGuitarImage`, `geminiService.ts` 177-215) -/

structure InlineData where
  mimeType : String
  data : String
  deriving DecidableEq

structure ResponsePart where
  inlineData : Option InlineData
  deriving DecidableEq

/-- The render response, reduced to the part the code reads:
`response.candidates?.[0]?.content?.parts` (`none` when any link of the
optional chain is absent). -/
structure RenderResponse where
  parts : Option (List ResponsePart)
  deriving DecidableEq

/-- The `for (const part of parts)` loop: returns the data URI built from the
first part whose `inlineData` and `inlineData.data` are both truthy (an empty
`data` string is falsy in JavaScript and is skipped). -/
def findImagePart : List ResponsePart → Option String
  | [] => none
  | p :: ps =>
    match p.inlineData with
    | some d => if d.data = "" then findImagePart ps else some ("data:" ++ d.mimeType ++ ";base64," ++ d.data)
    | none => findImagePart ps

/-- `generateModifiedGuitarImage` (`geminiService.ts` lines 177-215) applied to
a nominally successful response: throws "No image generated" when the parts
chain is absent, otherwise scans the parts and throws "Image data not found in
response" when no part carries inline image data. -/
def generateModifiedGuitarImage (resp : RenderResponse) : Except String String :=
  match resp.parts with
  | none => .error "No image generated"
  | some parts =>
    match findImagePart parts with
    | some uri => .ok uri
    | none => .error "Image data not found in response"

/-- Whether a single part carries truthy inline image data. -/
def partHasData (p : ResponsePart) : Bool :=
  match p.inlineData with
  | some d => !(d.data == "")
  | none => false

/-- Whether some part of the response carries truthy inline image data. -/
def respHasImage (resp : RenderResponse) : Bool :=
  match resp.parts with
  | none => false
  | some parts => parts.any partHasData

/-! ## Interaction shell state (`App.tsx`) -/

/-- The partial `detectedSpecs` object of an analysis response: every field is
optional free text (`types.ts` `AnalysisResult` with `Partial GuitarSpecs`,
restricted to the string fields the shell reads). -/
structure DetectedSpecs where
  bodyWood : Option String
  bridge : Option String
  pickups : Option String
  fretboard : Option String
  construction : Option String
  philosophy : Option String
  deriving DecidableEq

structure AnalysisResult where
  detectedSpecs : DetectedSpecs
  luthierNotes : String
  deriving DecidableEq

inductive ChatRole
  | user | model
  deriving DecidableEq

structure ChatMessage where
  role : ChatRole
  text : String
  deriving DecidableEq

inductive Tab
  | configurator | advisory
  deriving DecidableEq

/-- The `useState` pieces of `App.tsx` that the handlers under verification
read or write. -/
structure AppState where
  activeTab : Tab
  originalImage : Option String
  isAnalyzing : Bool
  isGenerating : Bool
  analysisResult : Option AnalysisResult
  generatedPrompt : Option String
  generatedImage : Option String
  error : Option String
  chatHistory : List ChatMessage
  isChatting : Bool
  specs : GuitarSpecs
  deriving DecidableEq

/-- The error message set by a failed analysis (`App.tsx` line 135). -/
def analysisErrorMessage : String :=
  "Failed to analyze image acoustics. Please check API Key."

/-- `performAnalysis` (`App.tsx` lines 129-139): the external call outcome is
passed explicitly (`none` = the call threw).  On success the whole result
replaces `analysisResult`; on failure only `error` is set; `isAnalyzing` is
cleared in the `finally` block. -/
def performAnalysis (st : AppState) (outcome : Option AnalysisResult) : AppState :=
  let st1 := { st with isAnalyzing := true }
  match outcome with
  | some result => { st1 with analysisResult := some result, isAnalyzing := false }
  | none => { st1 with error := some analysisErrorMessage, isAnalyzing := false }

/-- `handleFileUpload` (`App.tsx` lines 112-127): stores the data URI, clears
the outputs of the previous image (generated image and prompt, analysis
result, error), switches back to the configurator tab, then runs
`performAnalysis`. -/
def handleFileUpload (st : AppState) (dataUri : String) (outcome : Option AnalysisResult) : AppState :=
  performAnalysis
    { st with
      originalImage := some dataUri
      generatedImage := none
      generatedPrompt := none
      analysisResult := none
      error := none
      activeTab := .configurator }
    outcome

/-- `analysisResult?.detectedSpecs?.philosophy || "Standard Industry Design"`
(`App.tsx` line 161). -/
def philosophyOf (st : AppState) : String :=
  match st.analysisResult with
  | none => "Standard Industry Design"
  | some r => orFalsy r.detectedSpecs.philosophy "Standard Industry Design"

/-- The error message set by a failed simulation (`App.tsx` line 171). -/
def simulationErrorMessage : String :=
  "Simulation failed. Ensure you have a valid Gemini API Key enabled."

/-- `handleSimulate` (`App.tsx` lines 151-175).  The two external outcomes are
passed explicitly: `svcPrompt` feeds `generateLutheriePrompt` (see there) and
`svcImage` is the render call's outcome (`none` = the call threw, `some resp`
= a nominally successful response handed to `generateModifiedGuitarImage`).
Returns the final state paired with whether image synthesis was invoked at
all.  With no uploaded image the handler returns at once. -/
def handleSimulate (st : AppState) (svcPrompt : Option (Option String))
    (svcImage : Option RenderResponse) : AppState × Bool :=
  match st.originalImage with
  | none => (st, false)
  | some _ =>
    let st1 := { st with isGenerating := true, error := none, generatedImage := none, generatedPrompt := none }
    match generateLutheriePrompt st.specs (philosophyOf st) svcPrompt with
    | .error _ => ({ st1 with error := some simulationErrorMessage, isGenerating := false }, false)
    | .ok prompt =>
      let st2 := { st1 with generatedPrompt := some prompt }
      match svcImage with
      | none => ({ st2 with error := some simulationErrorMessage, isGenerating := false }, true)
      | some resp =>
        match generateModifiedGuitarImage resp with
        | .error _ => ({ st2 with error := some simulationErrorMessage, isGenerating := false }, true)
        | .ok uri => ({ st2 with generatedImage := some uri, isGenerating := false }, true)

/-! ## Advisory chat (`handleSendMessage`, `App.tsx` 177-209) -/

/-- The fixed interruption notice appended when a stream fails
(`App.tsx` line 205). -/
def interruptionNotice : String :=
  "Connection to Luthier Intelligence Interrupted."

/-- One iteration of the `for await` loop per received chunk: the chunk's text
(`c.text || ""`) is appended to the accumulator and the transcript's last
entry is overwritten with the accumulated text
(`newHistory[newHistory.length - 1] = ...`). -/
def consumeChunks (hist : List ChatMessage) (acc : String) : List (Option String) → List ChatMessage
  | [] => hist
  | c :: cs =>
    let fullResponse := acc ++ orFalsy c ""
    consumeChunks (hist.dropLast ++ [⟨.model, fullResponse⟩]) fullResponse cs

/-- The stream outcome of one `sendMessageStream` call: the call itself may
throw (`startFailure`), or deliver some chunks and complete, or deliver some
chunks and then fail mid-stream. -/
inductive StreamOutcome
  | startFailure
  | complete (chunks : List (Option String))
  | failAfter (chunks : List (Option String))
  deriving DecidableEq

/-- `handleSendMessage` (`App.tsx` lines 177-209) acting on the transcript:
guard on a blank input or missing session, append the user message, append an
empty model placeholder, accumulate the chunks into the placeholder; the catch
block on a failure appends the interruption notice as a new entry. -/
def handleSendMessage (hist : List ChatMessage) (chatInput : String) (hasSession : Bool)
    (outcome : StreamOutcome) : List ChatMessage :=
  if jsTrim chatInput = [] ∨ hasSession = false then hist
  else
    let h1 := hist ++ [⟨.user, chatInput⟩]
    match outcome with
    | .startFailure => h1 ++ [⟨.model, interruptionNotice⟩]
    | .complete chunks => consumeChunks (h1 ++ [⟨.model, ""⟩]) "" chunks
    | .failAfter chunks => consumeChunks (h1 ++ [⟨.model, ""⟩]) "" chunks ++ [⟨.model, interruptionNotice⟩]

/-- The text accumulated over a whole chunk sequence. -/
def joinChunks : List (Option String) → String
  | [] => ""
  | c :: cs => orFalsy c "" ++ joinChunks cs

/-! ## Helper lemmas -/

theorem charsStartWith_self_append (pat rest : List Char) :
    charsStartWith pat (pat ++ rest) = true := by
  induction pat with
  | nil => rfl
  | cons c cs ih => simp [charsStartWith, ih]

theorem charsContain_of_startWith {pat l : List Char} (h : charsStartWith pat l = true) :
    charsContain pat l = true := by
  cases l with
  | nil => exact h
  | cons c t => simp [charsContain, h]

theorem charsContain_of_append (pat lc : List Char) :
    ∀ la : List Char, charsContain pat (la ++ (pat ++ lc)) = true := by
  intro la
  induction la with
  | nil =>
    exact charsContain_of_startWith (charsStartWith_self_append pat lc)
  | cons a la' ih => simp [charsContain, ih]

theorem lowerChars_append (a b : String) :
    lowerChars (a ++ b) = lowerChars a ++ lowerChars b := by
  simp [lowerChars, String.data_append]

/-- Any notes of the shape `a ++ v ++ c` where `v` lowercases to the pattern
pass the case-insensitive containment test. -/
theorem containsLower_of_middle (a v c pat : String)
    (h : lowerChars v = pat.data) :
    containsLower (a ++ v ++ c) pat = true := by
  unfold containsLower
  rw [lowerChars_append, lowerChars_append, h, List.append_assoc]
  exact charsContain_of_append pat.data (lowerChars c) (lowerChars a)

/-- The two philosophy instructions are never the same string: one starts with
´C´, the other with ´E´. -/
theorem deviate_ne_preserve (phil : String) :
    deviateInstruction ≠ preserveInstruction phil := by
  intro h
  have e2 : (preserveInstruction phil).data.head? = some 'E' := by
    rw [preserveInstruction, String.data_append, String.data_append,
      List.head?_append, List.head?_append]
    rfl
  have e1 : deviateInstruction.data.head? = (preserveInstruction phil).data.head? := by rw [h]
  rw [e2] at e1
  have e0 : deviateInstruction.data.head? = some 'C' := rfl
  rw [e0] at e1
  simp at e1

/-- Running the chunk loop on a transcript ending in the placeholder leaves
everything before the placeholder alone and accumulates the chunk texts into
the last entry. -/
theorem consumeChunks_concat (cs : List (Option String)) :
    ∀ (h : List ChatMessage) (acc : String),
    consumeChunks (h ++ [⟨.model, acc⟩]) acc cs = h ++ [⟨.model, acc ++ joinChunks cs⟩] := by
  induction cs with
  | nil =>
    intro h acc
    simp [consumeChunks, joinChunks, String.append_empty]
  | cons c cs ih =>
    intro h acc
    simp only [consumeChunks, List.dropLast_concat]
    rw [ih h (acc ++ orFalsy c ""), String.append_assoc]
    rfl

theorem orFalsy_some_empty (s : String) : orFalsy (some s) "" = s := by
  by_cases h : s = "" <;> simp [orFalsy, h]

/-! ## Claim theorems -/

/-- C1: `generateLutheriePrompt` builds the deviate-from-philosophy
("High Performance Hybrid" / "Frankenstein") instruction if and only if the
notes field contains one of the fixed trigger words (frankenstein, relic,
hybrid) as a case-insensitive substring — in particular any notes containing
"hybrid" in any letter case trigger it — and otherwise builds the
preserve-philosophy instruction embedding the `originalPhilosophy` string. -/
theorem generateLutheriePrompt_trigger_characterization
    (specs : GuitarSpecs) (phil a v c : String)
    (hv : lowerChars v = "hybrid".data) :
    (philosophyInstruction specs phil = deviateInstruction ↔
      (containsLower (notesOf specs) "frankenstein" || containsLower (notesOf specs) "relic"
        || containsLower (notesOf specs) "hybrid") = true)
  ∧ (philosophyInstruction specs phil = preserveInstruction phil ↔
      (containsLower (notesOf specs) "frankenstein" || containsLower (notesOf specs) "relic"
        || containsLower (notesOf specs) "hybrid") = false)
  ∧ philosophyInstruction { specs with notes := some (a ++ v ++ c) } phil = deviateInstruction := by
  refine ⟨?_, ?_, ?_⟩
  · show philosophyInstruction specs phil = deviateInstruction ↔ isFrankenstein (notesOf specs) = true
    unfold philosophyInstruction
    cases hb : isFrankenstein (notesOf specs) <;> simp [hb]
    exact fun h => deviate_ne_preserve phil h.symm
  · show philosophyInstruction specs phil = preserveInstruction phil ↔ isFrankenstein (notesOf specs) = false
    unfold philosophyInstruction
    cases hb : isFrankenstein (notesOf specs) <;> simp [hb]
    exact deviate_ne_preserve phil
  · have hne : notesOf { specs with notes := some (a ++ v ++ c) } = a ++ v ++ c :=
      orFalsy_some_empty (a ++ v ++ c)
    have hc : containsLower (a ++ v ++ c) "hybrid" = true :=
      containsLower_of_middle a v c "hybrid" hv
    unfold philosophyInstruction
    rw [hne]
    simp [isFrankenstein, hc]

/-- Witness for C1 at a concrete input: the mixed-case notes
"big HyBRid mod" trigger the deviate instruction. -/
theorem generateLutheriePrompt_trigger_characterization_witness :
    lowerChars "HyBRid" = "hybrid".data
  ∧ philosophyInstruction { defaultSpecs with notes := some ("big " ++ "HyBRid" ++ " mod") } "P"
      = deviateInstruction :=
  ⟨by decide,
    (generateLutheriePrompt_trigger_characterization defaultSpecs "P" "big " "HyBRid" " mod"
      (by decide)).2.2⟩

/-- C2: the Frankenstein preset always produces the same four-field
combination — Floyd Rose bridge, HSS pickups, swamp ash body, the fixed
hybrid-mod notes (which contain the word "hybrid") — and leaves every other
field of the prior specs unchanged, in one functional update. -/
theorem applyFrankensteinPreset_fields (prev : GuitarSpecs) :
    (applyFrankensteinPreset prev).bridge = BridgeSystem.FLOYD_ROSE
  ∧ (applyFrankensteinPreset prev).pickups = PickupConfig.HSS
  ∧ (applyFrankensteinPreset prev).bodyWood = BodyWood.ASH
  ∧ (applyFrankensteinPreset prev).notes = some frankensteinNotes
  ∧ containsLower frankensteinNotes "hybrid" = true
  ∧ (applyFrankensteinPreset prev).neckProfile = prev.neckProfile
  ∧ (applyFrankensteinPreset prev).fretboard = prev.fretboard
  ∧ (applyFrankensteinPreset prev).scaleLength = prev.scaleLength
  ∧ (applyFrankensteinPreset prev).fretboardRadius = prev.fretboardRadius
  ∧ (applyFrankensteinPreset prev).construction = prev.construction
  ∧ (applyFrankensteinPreset prev).philosophy = prev.philosophy :=
  ⟨rfl, rfl, rfl, rfl, by decide, rfl, rfl, rfl, rfl, rfl, rfl⟩

/-- C7: each of the four characteristic tables assigns a non-empty
descriptive string to every value of its closed enumeration. -/
theorem characteristicTables_total_nonempty :
    (∀ w : BodyWood, (WOOD_CHARACTERISTICS w).isEmpty = false)
  ∧ (∀ n : NeckProfile, (NECK_CHARACTERISTICS n).isEmpty = false)
  ∧ (∀ b : BridgeSystem, (BRIDGE_MECHANICS b).isEmpty = false)
  ∧ (∀ f : FretboardMaterial, (FRETBOARD_RESPONSE f).isEmpty = false) := by
  refine ⟨?_, ?_, ?_, ?_⟩ <;> intro x <;> cases x <;> decide

/-- An analysis result whose detected philosophy is "Artesanal (Gibson)"
(arbitrary in its other fields), for the end-to-end default scenario. -/
def gibsonAnalysis (ds : DetectedSpecs) (ln : String) : AnalysisResult :=
  AnalysisResult.mk { ds with philosophy := some "Artesanal (Gibson)" } ln

/-- C8: the specification record is initialized with the documented defaults
(alder body, Modern C neck, rosewood fretboard, fixed Tune-o-matic bridge,
dual humbuckers, scale 24.75", radius 12"), the default notes contain no
trigger keyword, and generating from the untouched defaults with detected
philosophy "Artesanal (Gibson)" hands the synthesizer that philosophy and the
preserve-philosophy instruction. -/
theorem defaultSpecs_preserve_philosophy (st : AppState) (ds : DetectedSpecs) (ln : String) :
    defaultSpecs.bodyWood = BodyWood.ALDER
  ∧ defaultSpecs.neckProfile = NeckProfile.MODERN_C
  ∧ defaultSpecs.fretboard = FretboardMaterial.ROSEWOOD
  ∧ defaultSpecs.bridge = BridgeSystem.TUNE_O_MATIC
  ∧ defaultSpecs.pickups = PickupConfig.HH
  ∧ defaultSpecs.scaleLength = "24.75\""
  ∧ defaultSpecs.fretboardRadius = "12\""
  ∧ isFrankenstein (notesOf defaultSpecs) = false
  ∧ philosophyOf { st with analysisResult := some (gibsonAnalysis ds ln) } = "Artesanal (Gibson)"
  ∧ philosophyInstruction defaultSpecs "Artesanal (Gibson)"
      = preserveInstruction "Artesanal (Gibson)" :=
  ⟨rfl, rfl, rfl, rfl, rfl, rfl, rfl, by decide,
    by simp [philosophyOf, gibsonAnalysis, orFalsy], by decide⟩

/-- C9: the notes installed by the Frankenstein preset contain trigger words,
so any prompt synthesis after applying the preset (without further note
edits) uses the deviate-from-philosophy instruction and never the
preserve-philosophy one. -/
theorem applyFrankensteinPreset_always_deviates (prev : GuitarSpecs) (phil : String) :
    philosophyInstruction (applyFrankensteinPreset prev) phil = deviateInstruction
  ∧ (philosophyInstruction (applyFrankensteinPreset prev) phil == preserveInstruction phil)
      = false := by
  have h0 : notesOf (applyFrankensteinPreset prev) = frankensteinNotes :=
    orFalsy_some_empty frankensteinNotes
  have h1 : isFrankenstein (notesOf (applyFrankensteinPreset prev)) = true := by
    rw [h0]; decide
  have h2 : philosophyInstruction (applyFrankensteinPreset prev) phil = deviateInstruction := by
    unfold philosophyInstruction
    simp [h1]
  exact ⟨h2, h2 ▸ beq_eq_false_iff_ne.mpr (deviate_ne_preserve phil)⟩

theorem findImagePart_none_iff (parts : List ResponsePart) :
    findImagePart parts = none ↔ parts.any partHasData = false := by
  induction parts with
  | nil => simp [findImagePart]
  | cons p ps ih =>
    cases hp : p.inlineData with
    | none => simp [findImagePart, partHasData, hp, ih]
    | some d =>
      by_cases hd : d.data = ""
      · simp [findImagePart, partHasData, hp, hd, ih]
      · simp [findImagePart, partHasData, hp, hd]

theorem findImagePart_some_spec (parts : List ResponsePart) :
    ∀ uri : String, findImagePart parts = some uri →
    ∃ p, p ∈ parts ∧ ∃ d, p.inlineData = some d ∧ (d.data == "") = false ∧
      uri = "data:" ++ d.mimeType ++ ";base64," ++ d.data := by
  induction parts with
  | nil => intro uri h; simp [findImagePart] at h
  | cons p ps ih =>
    intro uri h
    cases hp : p.inlineData with
    | none =>
      simp only [findImagePart, hp] at h
      obtain ⟨q, hq, d', h1, h2, h3⟩ := ih uri h
      exact ⟨q, List.mem_cons_of_mem p hq, d', h1, h2, h3⟩
    | some d =>
      by_cases hd : d.data = ""
      · simp only [findImagePart, hp, if_pos hd] at h
        obtain ⟨q, hq, d', h1, h2, h3⟩ := ih uri h
        exact ⟨q, List.mem_cons_of_mem p hq, d', h1, h2, h3⟩
      · simp only [findImagePart, hp, if_neg hd] at h
        injection h with h
        exact ⟨p, List.mem_cons_self p ps, d, hp, beq_eq_false_iff_ne.mpr hd, h.symm⟩

/-- C3 counterexample: after a mid-stream failure the partially accumulated
fragment is NOT discarded — it remains in the transcript (as the penultimate
entry); the code appends the interruption notice rather than replacing the
accumulated text. -/
theorem handleSendMessage_failure_keeps_fragment :
    handleSendMessage [] "hi" true (.failAfter [some "par"]) =
      [⟨.user, "hi"⟩, ⟨.model, "par"⟩, ⟨.model, interruptionNotice⟩]
  ∧ ((handleSendMessage [] "hi" true (.failAfter [some "par"])).contains ⟨.model, "par"⟩) = true
  ∧ (handleSendMessage [] "hi" true (.failAfter [some "par"]) ==
      [⟨.user, "hi"⟩, ⟨.model, interruptionNotice⟩]) = false :=
  ⟨by decide, by decide, by decide⟩

/-- A successful (non-failing) send appends the user message and the fully
accumulated model response to the transcript. -/
theorem handleSendMessage_complete (hist : List ChatMessage) (input : String)
    (chunks : List (Option String)) (h : jsTrim input ≠ []) :
    handleSendMessage hist input true (.complete chunks) =
      hist ++ [⟨.user, input⟩, ⟨.model, joinChunks chunks⟩] := by
  have hcond : ¬(jsTrim input = [] ∨ (true : Bool) = false) := by simp [h]
  unfold handleSendMessage
  rw [if_neg hcond]
  show consumeChunks ((hist ++ [(⟨.user, input⟩ : ChatMessage)]) ++ [⟨.model, ""⟩]) "" chunks
    = hist ++ [⟨.user, input⟩, ⟨.model, joinChunks chunks⟩]
  rw [consumeChunks_concat]
  simp [String.empty_append]

/-- C3 (amended): on a mid-stream failure the fixed interruption notice is
appended as a new last transcript entry — so the last entry is exactly the
notice — while the partially accumulated text remains as the preceding
entry rather than being discarded; the session remains usable, i.e. a
subsequent successful send appends to the transcript normally. -/
theorem handleSendMessage_failure_appends_notice (hist : List ChatMessage) (input : String)
    (chunks : List (Option String)) (next : String) (chunks2 : List (Option String))
    (h : jsTrim input ≠ []) (h2 : jsTrim next ≠ []) :
    handleSendMessage hist input true (.failAfter chunks) =
      hist ++ [⟨.user, input⟩, ⟨.model, joinChunks chunks⟩, ⟨.model, interruptionNotice⟩]
  ∧ (handleSendMessage hist input true (.failAfter chunks)).getLast?
      = some ⟨.model, interruptionNotice⟩
  ∧ handleSendMessage (handleSendMessage hist input true (.failAfter chunks)) next true
      (.complete chunks2)
    = handleSendMessage hist input true (.failAfter chunks)
      ++ [⟨.user, next⟩, ⟨.model, joinChunks chunks2⟩] := by
  have hcond : ¬(jsTrim input = [] ∨ (true : Bool) = false) := by simp [h]
  have he : handleSendMessage hist input true (.failAfter chunks)
      = (hist ++ [⟨.user, input⟩]) ++ [⟨.model, "" ++ joinChunks chunks⟩]
        ++ [⟨.model, interruptionNotice⟩] := by
    unfold handleSendMessage
    rw [if_neg hcond]
    show consumeChunks ((hist ++ [(⟨.user, input⟩ : ChatMessage)]) ++ [⟨.model, ""⟩]) "" chunks
        ++ [⟨.model, interruptionNotice⟩]
      = (hist ++ [⟨.user, input⟩]) ++ [⟨.model, "" ++ joinChunks chunks⟩]
        ++ [⟨.model, interruptionNotice⟩]
    rw [consumeChunks_concat]
  refine ⟨?_, ?_, ?_⟩
  · rw [he]; simp [String.empty_append]
  · rw [he, List.getLast?_concat]
  · exact handleSendMessage_complete _ next chunks2 h2

/-- Witness for the amended C3 at a concrete input. -/
theorem handleSendMessage_failure_appends_notice_witness :
    jsTrim "hi" ≠ []
  ∧ jsTrim "ok" ≠ []
  ∧ (handleSendMessage [] "hi" true (.failAfter [some "par"]) =
      [] ++ [⟨.user, "hi"⟩, ⟨.model, joinChunks [some "par"]⟩, ⟨.model, interruptionNotice⟩]
    ∧ (handleSendMessage [] "hi" true (.failAfter [some "par"])).getLast?
        = some ⟨.model, interruptionNotice⟩
    ∧ handleSendMessage (handleSendMessage [] "hi" true (.failAfter [some "par"])) "ok" true
        (.complete [some "ans"])
      = handleSendMessage [] "hi" true (.failAfter [some "par"])
        ++ [⟨.user, "ok"⟩, ⟨.model, joinChunks [some "ans"]⟩]) :=
  ⟨by decide, by decide,
    handleSendMessage_failure_appends_notice [] "hi" [some "par"] "ok" [some "ans"]
      (by decide) (by decide)⟩

/-- C4: a failed analysis leaves the stored analysis result untouched and only
sets the user-visible error; in the upload-then-analyze flow a failure leaves
`analysisResult` absent (the upload cleared it), and a subsequent successful
analysis replaces the result wholesale. -/
theorem analysisFailure_state (st : AppState) (r : AnalysisResult) (uri : String) :
    (performAnalysis st none).analysisResult = st.analysisResult
  ∧ (performAnalysis st none).error = some analysisErrorMessage
  ∧ (performAnalysis st none).isAnalyzing = false
  ∧ (performAnalysis st (some r)).analysisResult = some r
  ∧ (performAnalysis st (some r)).isAnalyzing = false
  ∧ (handleFileUpload st uri none).analysisResult = none
  ∧ (handleFileUpload st uri none).error = some analysisErrorMessage
  ∧ (performAnalysis (handleFileUpload st uri none) (some r)).analysisResult = some r :=
  ⟨rfl, rfl, rfl, rfl, rfl, rfl, rfl, rfl⟩

/-- C5: the render call fails exactly when the nominally successful response
carries no (truthy) inline image data, and succeeds exactly by returning the
data URI combining the MIME type and base64 payload of a response part. -/
theorem renderResponse_image_detection (resp : RenderResponse) :
    ((∃ e, generateModifiedGuitarImage resp = .error e) ↔ respHasImage resp = false)
  ∧ (respHasImage resp = true ↔
      ∃ parts p d, resp.parts = some parts ∧ p ∈ parts ∧ p.inlineData = some d
        ∧ (d.data == "") = false
        ∧ generateModifiedGuitarImage resp
            = .ok ("data:" ++ d.mimeType ++ ";base64," ++ d.data)) := by
  obtain ⟨op⟩ := resp
  cases op with
  | none =>
    constructor
    · simp [generateModifiedGuitarImage, respHasImage]
    · simp [respHasImage]
  | some parts =>
    cases hf : findImagePart parts with
    | none =>
      have hany : parts.any partHasData = false := (findImagePart_none_iff parts).mp hf
      constructor
      · simp [generateModifiedGuitarImage, respHasImage, hf, hany]
      · constructor
        · intro hcontra
          exact absurd hcontra (by simp [respHasImage, hany])
        · rintro ⟨parts', p', d', hp', hmem', h1', h2', hg'⟩
          simp [generateModifiedGuitarImage, hf] at hg'
    | some uri =>
      obtain ⟨p, hmem, d, h1, h2, h3⟩ := findImagePart_some_spec parts uri hf
      have hany : parts.any partHasData = true :=
        List.any_eq_true.mpr ⟨p, hmem, by simp [partHasData, h1, h2]⟩
      constructor
      · simp [generateModifiedGuitarImage, respHasImage, hf, hany]
      · constructor
        · intro _
          refine ⟨parts, p, d, rfl, hmem, h1, h2, ?_⟩
          rw [← h3]
          simp [generateModifiedGuitarImage, hf]
        · intro _
          show parts.any partHasData = true
          exact hany

/-- C6: when prompt synthesis throws, `handleSimulate` shows the generic
failure message, clears the pipeline outputs and never invokes image
synthesis. -/
theorem promptFailure_aborts_pipeline (st : AppState) (img : String)
    (svcImage : Option RenderResponse) :
    (handleSimulate { st with originalImage := some img } none svcImage).2 = false
  ∧ (handleSimulate { st with originalImage := some img } none svcImage).1.error
      = some simulationErrorMessage
  ∧ (handleSimulate { st with originalImage := some img } none svcImage).1.generatedPrompt = none
  ∧ (handleSimulate { st with originalImage := some img } none svcImage).1.generatedImage = none
  ∧ (handleSimulate { st with originalImage := some img } none svcImage).1.isGenerating = false :=
  ⟨rfl, rfl, rfl, rfl, rfl⟩

/-- C10: a successful synthesis response with empty or absent text does not
fail: `generateLutheriePrompt` returns the literal non-empty fallback string,
and the pipeline proceeds to invoke image synthesis with that literal as the
prompt. -/
theorem emptySynthesisText_falls_back (st : AppState) (img : String) (specs : GuitarSpecs)
    (phil : String) (svcImage : Option RenderResponse) :
    generateLutheriePrompt specs phil (some none) = .ok failedPromptText
  ∧ generateLutheriePrompt specs phil (some (some "")) = .ok failedPromptText
  ∧ failedPromptText.isEmpty = false
  ∧ (handleSimulate { st with originalImage := some img } (some none) svcImage).2 = true
  ∧ (handleSimulate { st with originalImage := some img } (some none) svcImage).1.generatedPrompt
      = some failedPromptText := by
  refine ⟨rfl, by simp [generateLutheriePrompt, orFalsy], by decide, ?_, ?_⟩
  · cases svcImage with
    | none => rfl
    | some resp =>
      cases hg : generateModifiedGuitarImage resp with
      | error e => simp [handleSimulate, generateLutheriePrompt, orFalsy, hg]
      | ok u => simp [handleSimulate, generateLutheriePrompt, orFalsy, hg]
  · cases svcImage with
    | none => rfl
    | some resp =>
      cases hg : generateModifiedGuitarImage resp with
      | error e => simp [handleSimulate, generateLutheriePrompt, orFalsy, hg]
      | ok u => simp [handleSimulate, generateLutheriePrompt, orFalsy, hg]

end GuitarPaint
